import Mathlib

/-!
# Verification of mysql-events

A shallow embedding of the `mysql-events` sources: the connection
normalization code (`src/lib/connectionHandler.js`) and the
trigger-matching / event-dispatch engine described by the package's
declaration file, with proofs about their behaviour.
-/

set_option maxHeartbeats 1000000

namespace MySQLEvents

/-! ## Connection handling — `src/lib/connectionHandler.js`

The JS module manipulates mysql handles (`Connection` / `Pool` objects),
plain config objects, and connection strings.  We model a mysql handle as a
record carrying its kind (connection vs pool), its `state` string (mysql
sets `state` to `"connected"` once connected; pools have no such state) and
the config it was created from.  Effects performed against the mysql
library (creating connections/pools, invoking `connect`/`getConnection`)
are recorded in an effect trace, and the library's behaviour (which handles
`mysql.createConnection`/`mysql.createPool` return, whether connecting
succeeds) is supplied by an environment `Env`. -/

abbrev Err := String

inductive HandleKind
  | connection
  | pool
  deriving DecidableEq

structure Config where
  isPool : Option Bool
  rest : String
  deriving DecidableEq

structure Handle where
  kind : HandleKind
  state : String
  config : Config
  deriving DecidableEq

/-- The value passed to `connectionHandler`: a connection string, a plain
config object, or an existing mysql `Connection`/`Pool` instance. -/
inductive JSValue
  | str (s : String)
  | obj (cfg : Config)
  | handle (h : Handle)
  deriving DecidableEq

inductive Effect
  | createConnectionStr (s : String)
  | createConnectionCfg (c : Config)
  | createPool (c : Config)
  | connectCall (h : Handle)
  | getConnectionCall (h : Handle)
  deriving DecidableEq

/-- Outcome of the Promise built inside `connect`: `resolved none` for the
`connection.connect` branch (which resolves with no value), `resolved
(some conn)` for the pool branch (which resolves with the member
connection), `rejected e` on error. -/
inductive PromiseResult
  | resolved (v : Option Handle)
  | rejected (e : Err)
  deriving DecidableEq

/-- The mysql library as seen by `connectionHandler`. -/
structure Env where
  createConnectionStr : String → Handle
  createConnectionCfg : Config → Handle
  createPool : Config → Handle
  /-- result reported to the `connection.connect(err => ...)` callback. -/
  connectResult : Handle → Option Err
  /-- result reported to the `pool.getConnection((err, conn) => ...)` callback. -/
  getConnectionResult : Handle → Except Err Handle

/-- The executor of the Promise constructed in `connect`
(`src/lib/connectionHandler.js` lines 7–21): pools go through
`getConnection`, everything else through `connection.connect`. -/
def connectPromiseResult (env : Env) (h : Handle) : PromiseResult :=
  if h.kind == HandleKind.pool then
    match env.getConnectionResult h with
    | Except.error e => PromiseResult.rejected e
    | Except.ok conn => PromiseResult.resolved (some conn)
  else
    match env.connectResult h with
    | some e => PromiseResult.rejected e
    | none => PromiseResult.resolved none

/-- `connect` (`src/lib/connectionHandler.js` lines 6–22).  The arrow
function's body is a braced block with no `return`, so the Promise it
constructs is dropped and the caller receives `undefined` (`none` here);
the executor still runs synchronously, which is why the effect trace is
produced. -/
def connect (env : Env) (h : Handle) : Option PromiseResult × List Effect :=
  let _promise := connectPromiseResult env h
  if h.kind == HandleKind.pool then
    (none, [Effect.getConnectionCall h])
  else
    (none, [Effect.connectCall h])

/-- `await` applied to the value returned by `connect`: awaiting
`undefined` resolves immediately; awaiting a Promise propagates its
outcome. -/
def awaitOpt : Option PromiseResult → Except Err Unit
  | none => Except.ok ()
  | some (PromiseResult.resolved _) => Except.ok ()
  | some (PromiseResult.rejected e) => Except.error e

/-- Lines 25–30: `if (connection instanceof Connection)` — a connection
instance that is not in state `"connected"` is replaced by
`mysql.createConnection(connection.config)`. -/
def step1 (env : Env) (v : JSValue) : JSValue × List Effect :=
  match v with
  | JSValue.handle h =>
    if h.kind == HandleKind.connection && h.state != "connected" then
      (JSValue.handle (env.createConnectionCfg h.config), [Effect.createConnectionCfg h.config])
    else (v, [])
  | _ => (v, [])

/-- Lines 32–35: `if (typeof connection === "string")`. -/
def step2 (env : Env) (v : JSValue) : JSValue × List Effect :=
  match v with
  | JSValue.str s => (JSValue.handle (env.createConnectionStr s), [Effect.createConnectionStr s])
  | _ => (v, [])

/-- Lines 37–51: a plain object that is neither a `Connection` nor a
`Pool` instance becomes a pool when `"isPool" in connection` and
`connection.isPool === true`, otherwise a connection. -/
def step3 (env : Env) (v : JSValue) : JSValue × List Effect :=
  match v with
  | JSValue.obj cfg =>
    match cfg.isPool with
    | some b =>
      if b then (JSValue.handle (env.createPool cfg), [Effect.createPool cfg])
      else (JSValue.handle (env.createConnectionCfg cfg), [Effect.createConnectionCfg cfg])
    | none => (JSValue.handle (env.createConnectionCfg cfg), [Effect.createConnectionCfg cfg])
  | _ => (v, [])

/-- `connectionHandler` (`src/lib/connectionHandler.js` lines 24–58).
After the three normalization steps the value is always a handle
(strings and plain objects have been replaced); lines 52–55 then invoke
`connect` when the handle is not in state `"connected"` and `await` its
(undefined) return value, and line 57 returns the handle. The non-handle
fallthrough mirrors the `TypeError` JS would raise calling `.connect` on
a non-object; it is unreachable for every `JSValue`. -/
def connectionHandler (env : Env) (v : JSValue) : Except Err Handle × List Effect :=
  let r1 := step1 env v
  let r2 := step2 env r1.fst
  let r3 := step3 env r2.fst
  match r3.fst with
  | JSValue.handle h =>
    if h.state != "connected" then
      let r4 := connect env h
      match awaitOpt r4.fst with
      | Except.ok _ => (Except.ok h, r1.snd ++ r2.snd ++ r3.snd ++ r4.snd)
      | Except.error e => (Except.error e, r1.snd ++ r2.snd ++ r3.snd ++ r4.snd)
    else (Except.ok h, r1.snd ++ r2.snd ++ r3.snd)
  | _ => (Except.error "TypeError", r1.snd ++ r2.snd ++ r3.snd)

/-- A mysql library model in which every connect attempt fails. -/
def envFail : Env :=
  ⟨fun s => ⟨HandleKind.connection, "disconnected", ⟨none, s⟩⟩,
   fun c => ⟨HandleKind.connection, "disconnected", c⟩,
   fun c => ⟨HandleKind.pool, "", c⟩,
   fun _ => some "ECONNREFUSED",
   fun _ => Except.error "ECONNREFUSED"⟩

/-- A disconnected mysql `Connection` instance. -/
def disconnectedConn : Handle := ⟨HandleKind.connection, "disconnected", ⟨none, "srv"⟩⟩

/-- A mysql `Connection` instance already in state `connected`. -/
def connectedConn : Handle := ⟨HandleKind.connection, "connected", ⟨none, "srv"⟩⟩

/-- A plain config object with `isPool: true`. -/
def poolCfg : Config := ⟨some true, "srv"⟩

/-- C1: `connectionHandler` is documented to resolve only with a live,
connected handle and to reject when establishing the connection fails.
The code's `connect` builds its Promise inside a braced arrow body with no
`return`, so the caller awaits `undefined`: at an input whose connect
attempt fails with `ECONNREFUSED`, `connectionHandler` still resolves —
with a handle that is not connected — instead of rejecting. -/
theorem C1_connect_failure_not_propagated :
    connectionHandler envFail (JSValue.handle disconnectedConn) =
      (Except.ok (envFail.createConnectionCfg disconnectedConn.config),
       [Effect.createConnectionCfg disconnectedConn.config,
        Effect.connectCall (envFail.createConnectionCfg disconnectedConn.config)]) ∧
    envFail.connectResult (envFail.createConnectionCfg disconnectedConn.config) =
      some "ECONNREFUSED" ∧
    (envFail.createConnectionCfg disconnectedConn.config).state ≠ "connected" :=
  ⟨rfl, rfl, by decide⟩

/-- C9: a mysql `Connection` whose state is `connected` is returned by
`connectionHandler` as-is: the very same handle, with an empty effect
trace — no new connection is created and no connect step is invoked. -/
theorem C9_connected_connection_passthrough (env : Env) (h : Handle)
    (hk : h.kind = HandleKind.connection) (hs : h.state = "connected") :
    connectionHandler env (JSValue.handle h) = (Except.ok h, []) := by
  simp [connectionHandler, step1, step2, step3, hk, hs]

/-- Witness for C9 at a concrete connected handle. -/
theorem C9_witness :
    connectionHandler envFail (JSValue.handle connectedConn) =
      (Except.ok connectedConn, []) :=
  C9_connected_connection_passthrough envFail connectedConn rfl rfl

/-- C10: a plain object with `isPool: true` is turned into a mysql pool
and `connectionHandler` resolves with the pool itself; the connect step
only calls `getConnection` on the pool, and no connection-kind handle —
in particular no member connection obtained from the pool — is ever the
returned value. -/
theorem C10_pool_object_returns_pool (env : Env) (cfg : Config)
    (hp : cfg.isPool = some true)
    (hk : (env.createPool cfg).kind = HandleKind.pool)
    (hs : (env.createPool cfg).state ≠ "connected") :
    connectionHandler env (JSValue.obj cfg) =
      (Except.ok (env.createPool cfg),
       [Effect.createPool cfg, Effect.getConnectionCall (env.createPool cfg)]) ∧
    ∀ mc : Handle, mc.kind = HandleKind.connection →
      Except.ok mc ≠ (connectionHandler env (JSValue.obj cfg)).fst := by
  have hmain : connectionHandler env (JSValue.obj cfg) =
      (Except.ok (env.createPool cfg),
       [Effect.createPool cfg, Effect.getConnectionCall (env.createPool cfg)]) := by
    simp [connectionHandler, step1, step2, step3, connect, awaitOpt, hp, hk, hs]
  refine ⟨hmain, ?_⟩
  intro mc hmc
  rw [hmain]
  intro hcontra
  have hmcp : mc = env.createPool cfg := by
    injection hcontra
  rw [hmcp, hk] at hmc
  simp at hmc

/-- Witness for C10 at a concrete `isPool: true` config object. -/
theorem C10_witness :
    connectionHandler envFail (JSValue.obj poolCfg) =
      (Except.ok (envFail.createPool poolCfg),
       [Effect.createPool poolCfg,
        Effect.getConnectionCall (envFail.createPool poolCfg)]) :=
  (C10_pool_object_returns_pool envFail poolCfg rfl rfl (by decide)).1

/-! ## Row values and rows

Column values as they appear in replicated rows.  `vnull` is SQL NULL;
comparison is plain (case-sensitive, type-sensitive) equality, so NULL
equals NULL and NULL differs from every non-NULL value. -/

inductive Value
  | vnull
  | vint (n : Int)
  | vstr (s : String)
  deriving DecidableEq

/-- A row: an association of column names to values. -/
abbrev Row := List (String × Value)

def rowGet (r : Row) (c : String) : Option Value :=
  (r.find? (fun p => p.fst == c)).map Prod.snd

/-- Field-by-field inequality test: values are equal only if identical;
NULL vs NULL is equal, NULL vs non-NULL is not. -/
def valueDiff (a b : Option Value) : Bool := decide (a ≠ b)

/-! ## RowEventTranslator

Modelled from the spec: the RowEventTranslator itself is not among the
analyzed sources — only the `EventType` and `AffectedRow` declarations
are — so the translation is taken from spec §4.2 and §3.  A raw
replicated mutation carries its statement kind together with the row
images the binlog delivers for that kind: new rows for INSERT, old rows
for DELETE, before/after pairs for UPDATE. -/

inductive RawRows
  | ins (rows : List Row)
  | upd (pairs : List (Row × Row))
  | del (rows : List Row)
  deriving DecidableEq

def RawRows.kind : RawRows → String
  | RawRows.ins _ => "INSERT"
  | RawRows.upd _ => "UPDATE"
  | RawRows.del _ => "DELETE"

/-- A raw change record as delivered by the replication source, together
with the table's full column set from the replicated schema metadata. -/
structure RawRecord where
  schema : String
  table : String
  binlogName : String
  nextPosition : Nat
  timestamp : Nat
  columns : List String
  rows : RawRows
  deriving DecidableEq

/-- One before/after pair of a produced event. -/
structure AffectedRow where
  before : Option Row
  after : Option Row
  deriving DecidableEq

/-- The normalized event delivered to triggers (the `EventType`
declaration of the package). -/
structure Event where
  type : String
  schema : String
  table : String
  binlogName : String
  nextPosition : Nat
  timestamp : Nat
  affectedRows : List AffectedRow
  affectedColumns : List String
  deriving DecidableEq

/-- Modelled from the spec (§4.2, §3 AffectedRow): one `AffectedRow` per
row touched; INSERT has no before image, DELETE no after image, UPDATE
both. -/
def toAffectedRows : RawRows → List AffectedRow
  | RawRows.ins rs => rs.map (fun r => ⟨none, some r⟩)
  | RawRows.upd ps => ps.map (fun p => ⟨some p.fst, some p.snd⟩)
  | RawRows.del rs => rs.map (fun r => ⟨some r, none⟩)

/-- Modelled from the spec (§4.2): for UPDATE, the columns whose value
differs between before and after in some touched row; for INSERT/DELETE,
the full column set. -/
def affectedColumnsOf (cols : List String) : RawRows → List String
  | RawRows.upd ps =>
    cols.filter (fun c => ps.any (fun p => valueDiff (rowGet p.fst c) (rowGet p.snd c)))
  | RawRows.ins _ => cols
  | RawRows.del _ => cols

/-- Modelled from the spec: the RowEventTranslator (§4.2) is absent from
the analyzed sources; it turns a raw record into the normalized event. -/
def translate (r : RawRecord) : Event :=
  ⟨r.rows.kind, r.schema, r.table, r.binlogName, r.nextPosition, r.timestamp,
   toAffectedRows r.rows, affectedColumnsOf r.columns r.rows⟩

/-! ## TriggerMatcher

Modelled from the spec: the matching engine (§4.3) is absent from the
analyzed sources — only the `Trigger`/`Statements` declarations are. -/

/-- A registered trigger (handler omitted: it does not affect matching). -/
structure Trigger where
  name : String
  expression : String
  statement : String
  deriving DecidableEq

/-- Split a dotted expression into its segments, like JS
`expression.split(".")`. -/
def splitSegsAux : List Char → List Char → List String
  | [], acc => [String.mk acc.reverse]
  | c :: cs, acc =>
    if c = '.' then String.mk acc.reverse :: splitSegsAux cs []
    else splitSegsAux cs (c :: acc)

def exprSegs (e : String) : List String := splitSegsAux e.toList []

/-- Segment match (spec §4.3): a literal segment requires exact
case-sensitive equality; `*` matches any value. -/
def segMatch (pat v : String) : Bool := pat == "*" || pat == v

/-- Modelled from the spec (§4.3, §3 Expression): the expression matches
schema and table segment-wise, an expression shorter than three segments
is wildcard-padded on the right, and a literal third segment matches if
it matches any affected column (`*` matches any value including
absent/empty). -/
def exprMatch (expr schema table : String) (cols : List String) : Bool :=
  segMatch ((exprSegs expr).getD 0 "*") schema &&
  segMatch ((exprSegs expr).getD 1 "*") table &&
  ((exprSegs expr).getD 2 "*" == "*" || cols.contains ((exprSegs expr).getD 2 "*"))

/-- Statement filter (spec §4.3): passes when the trigger's statement is
`ALL` or equals the event's type. -/
def statementPasses (st evType : String) : Bool := st == "ALL" || st == evType

/-- Modelled from the spec (§4.3): a trigger matches an event iff the
statement filter passes and the expression matches. -/
def triggerMatches (t : Trigger) (e : Event) : Bool :=
  statementPasses t.statement e.type &&
  exprMatch t.expression e.schema e.table e.affectedColumns

/-- Matching against the registry, in registry iteration order. -/
def matchTriggers (reg : List Trigger) (e : Event) : List Trigger :=
  reg.filter (fun t => triggerMatches t e)

/-! ## SchemaFilter

Modelled from the spec: the filter (§4.1) is absent from the analyzed
sources — only the `ZongjiOptions.includeSchema` / `excludeSchema`
declarations are.  A schema map sends a database name to either a flag
(`true` = the whole database) or a set of table names. -/

inductive SchemaSpec
  | flag (b : Bool)
  | tables (ts : List String)
  deriving DecidableEq

abbrev SchemaMap := List (String × SchemaSpec)

def lookupSchema (m : SchemaMap) (s : String) : Option SchemaSpec :=
  (m.find? (fun p => p.fst == s)).map Prod.snd

/-- Does the exclude configuration cover this schema/table pair? -/
def excludeHit (exc : SchemaMap) (schema table : String) : Bool :=
  match lookupSchema exc schema with
  | none => false
  | some (SchemaSpec.flag b) => b
  | some (SchemaSpec.tables ts) => ts.contains table

/-- Does the include configuration admit this schema/table pair?  An
empty include map admits everything. -/
def includePass (inc : SchemaMap) (schema table : String) : Bool :=
  if inc.isEmpty then true
  else
    match lookupSchema inc schema with
    | none => false
    | some (SchemaSpec.flag b) => b
    | some (SchemaSpec.tables ts) => ts.contains table

/-- Modelled from the spec (§4.1): reject when excluded; else reject
when a non-empty include map does not list the pair; else accept. -/
def allowed (inc exc : SchemaMap) (schema table : String) : Bool :=
  !(excludeHit exc schema table) && includePass inc schema table

/-! ## TriggerRegistry

Modelled from the spec: the registry (§4.4, §7 error taxonomy) is absent
from the analyzed sources — only the `addTrigger`/`removeTrigger`
declarations are. -/

inductive ConfigurationError
  | duplicateName (n : String)
  | notFound (n : String)
  deriving DecidableEq

/-- `add(trigger)`: fails with a duplicate-name error when a trigger of
that name is already registered, else appends in insertion order. -/
def addTrigger (reg : List Trigger) (t : Trigger) :
    Except ConfigurationError (List Trigger) :=
  if reg.any (fun x => x.name == t.name) then
    Except.error (ConfigurationError.duplicateName t.name)
  else Except.ok (reg ++ [t])

/-- `remove(name)`: fails with a not-found error when absent, else
removes the trigger of that name. -/
def removeTrigger (reg : List Trigger) (n : String) :
    Except ConfigurationError (List Trigger) :=
  if reg.any (fun x => x.name == n) then
    Except.ok (reg.filter (fun x => x.name != n))
  else Except.error (ConfigurationError.notFound n)

/-- The registry state after an `addTrigger` call: unchanged when the
call fails (the error is surfaced synchronously to the caller). -/
def applyAddTrigger (reg : List Trigger) (t : Trigger) :
    List Trigger × Option ConfigurationError :=
  match addTrigger reg t with
  | Except.ok reg2 => (reg2, none)
  | Except.error e => (reg, some e)

/-! ## DispatchLoop position bookkeeping

Modelled from the spec: the dispatch loop (§4.5) is absent from the
analyzed sources.  Per raw record while running: apply the SchemaFilter
(on rejection, advance Position and continue), translate, dispatch to the
matched handlers, and only then advance Position to the record's
position.  The loop state records the cursor, the records still to pull,
and the log of fully dispatched events. -/

structure Position where
  binlogName : String
  nextPosition : Nat
  deriving DecidableEq

def recordPos (r : RawRecord) : Position := ⟨r.binlogName, r.nextPosition⟩

structure LoopState where
  pos : Position
  remaining : List RawRecord
  dispatched : List Event
  deriving DecidableEq

/-- One step of the dispatch loop: pull the next raw record, dispatch its
event when the filter admits it, and advance the cursor to the record's
position in the same step — never in an earlier one. -/
def stepLoop (inc exc : SchemaMap) (s : LoopState) : Option LoopState :=
  match s.remaining with
  | [] => none
  | r :: rest =>
    some ⟨recordPos r, rest,
      if allowed inc exc r.schema r.table then s.dispatched ++ [translate r]
      else s.dispatched⟩

/-- Run the loop for `n` steps (or until the source is exhausted). -/
def runLoop (inc exc : SchemaMap) : Nat → LoopState → LoopState
  | 0, s => s
  | n + 1, s =>
    match stepLoop inc exc s with
    | none => s
    | some s2 => runLoop inc exc n s2

/-- Restarting from a persisted position: the replication source
re-delivers exactly the records strictly after that position. -/
def resumeSource (recs : List RawRecord) (p : Position) : List RawRecord :=
  recs.filter (fun r => decide (p.nextPosition < r.nextPosition))

/-- The fresh loop state after a restart from persisted position `p`. -/
def restartState (recs : List RawRecord) (p : Position) : LoopState :=
  ⟨p, resumeSource recs p, []⟩

/-! ## Theorems about the trigger-matching engine -/

/-- C2: matching follows the wildcard rule — a literal segment matches
only by exact case-sensitive equality and `*` matches any value; hence
`*.*.*` matches every event, `db.*.*` matches exactly the events with
schema `db`, and `db.tbl.col` matches exactly the events on schema `db`
and table `tbl` whose affected columns contain `col`. -/
theorem C2_wildcard_matching :
    (∀ pat v : String, segMatch pat v = true ↔ (pat = "*" ∨ pat = v)) ∧
    (∀ (schema table : String) (cols : List String),
      exprMatch "*.*.*" schema table cols = true) ∧
    (∀ (schema table : String) (cols : List String),
      exprMatch "db.*.*" schema table cols = true ↔ schema = "db") ∧
    (∀ (schema table : String) (cols : List String),
      exprMatch "db.tbl.col" schema table cols = true ↔
        (schema = "db" ∧ table = "tbl" ∧ "col" ∈ cols)) := by
  refine ⟨?_, ?_, ?_, ?_⟩
  · intro pat v
    simp [segMatch]
  · intro schema table cols
    have h1 : exprSegs "*.*.*" = ["*", "*", "*"] := by decide
    simp [exprMatch, h1, segMatch]
  · intro schema table cols
    have h1 : exprSegs "db.*.*" = ["db", "*", "*"] := by decide
    simp [exprMatch, h1, segMatch]
    exact eq_comm
  · intro schema table cols
    have h1 : exprSegs "db.tbl.col" = ["db", "tbl", "col"] := by decide
    simp [exprMatch, h1, segMatch]
    constructor
    · rintro ⟨⟨hsch, htab⟩, hcol⟩
      exact ⟨hsch.symm, htab.symm, hcol⟩
    · rintro ⟨hsch, htab, hcol⟩
      exact ⟨⟨hsch.symm, htab.symm⟩, hcol⟩

/-- Witness for C2: the column-level expression matches a concrete event
tuple whose affected columns contain the literal column. -/
theorem C2_witness :
    exprMatch "db.tbl.col" "db" "tbl" ["a", "col"] = true :=
  (C2_wildcard_matching.2.2.2 "db" "tbl" ["a", "col"]).mpr
    ⟨rfl, rfl, by decide⟩

/-- C3: a trigger matches only if its statement filter passes —
`statement` is `ALL` or equals the event's type — and a trigger with
statement `INSERT` matches no UPDATE or DELETE event. -/
theorem C3_statement_filter :
    (∀ (t : Trigger) (e : Event), triggerMatches t e = true →
      t.statement = "ALL" ∨ t.statement = e.type) ∧
    (∀ (t : Trigger) (e : Event), t.statement = "INSERT" →
      e.type = "UPDATE" ∨ e.type = "DELETE" → triggerMatches t e = false) := by
  constructor
  · intro t e hm
    rw [triggerMatches, Bool.and_eq_true] at hm
    have h1 := hm.1
    simpa [statementPasses] using h1
  · intro t e hst hty
    rcases hty with h | h <;> simp [triggerMatches, statementPasses, hst, h]

/-- A concrete UPDATE event. -/
def updEvent : Event :=
  ⟨"UPDATE", "db", "tbl", "bin.000001", 154, 1700000000000,
   [⟨some [("c", Value.vint 1)], some [("c", Value.vint 2)]⟩], ["c"]⟩

/-- Witness for C3: an INSERT-only trigger whose expression matches
everything still rejects a concrete UPDATE event. -/
theorem C3_witness :
    triggerMatches ⟨"t0", "*.*.*", "INSERT"⟩ updEvent = false :=
  C3_statement_filter.2 ⟨"t0", "*.*.*", "INSERT"⟩ updEvent rfl (Or.inl rfl)

/-- C4: the SchemaFilter rejects every pair the exclude configuration
covers, regardless of the include configuration; `excludeSchema
{db1: true}` with `includeSchema {db1: ["t1"]}` rejects every table of
`db1`; with no configuration at all every pair is accepted. -/
theorem C4_exclude_precedence :
    (∀ (inc exc : SchemaMap) (schema table : String),
      excludeHit exc schema table = true → allowed inc exc schema table = false) ∧
    (∀ table : String,
      allowed [("db1", SchemaSpec.tables ["t1"])] [("db1", SchemaSpec.flag true)]
        "db1" table = false) ∧
    (∀ schema table : String, allowed [] [] schema table = true) := by
  refine ⟨?_, ?_, ?_⟩
  · intro inc exc s t h
    simp [allowed, h]
  · intro table
    rfl
  · intro s t
    rfl

/-- Witness for C4: a concrete excluded pair is rejected even though the
include map lists it. -/
theorem C4_witness :
    allowed [("db1", SchemaSpec.tables ["t1"])] [("db1", SchemaSpec.flag true)]
      "db1" "t1" = false :=
  C4_exclude_precedence.1 [("db1", SchemaSpec.tables ["t1"])]
    [("db1", SchemaSpec.flag true)] "db1" "t1" (by decide)

/-- C5: every translated event satisfies the AffectedRow invariant — an
INSERT record produces rows with no before image, a DELETE record rows
with no after image, and an UPDATE record rows with both images
present. -/
theorem C5_affected_row_invariant (r : RawRecord) :
    (∀ rs, r.rows = RawRows.ins rs →
      ∀ a ∈ (translate r).affectedRows, a.before = none) ∧
    (∀ rs, r.rows = RawRows.del rs →
      ∀ a ∈ (translate r).affectedRows, a.after = none) ∧
    (∀ ps, r.rows = RawRows.upd ps →
      ∀ a ∈ (translate r).affectedRows, a.before.isSome ∧ a.after.isSome) := by
  refine ⟨?_, ?_, ?_⟩
  · intro rs hrs a ha
    simp [translate, hrs, toAffectedRows] at ha
    obtain ⟨x, _, hax⟩ := ha
    simp [← hax]
  · intro rs hrs a ha
    simp [translate, hrs, toAffectedRows] at ha
    obtain ⟨x, _, hax⟩ := ha
    simp [← hax]
  · intro ps hps a ha
    simp [translate, hps, toAffectedRows] at ha
    obtain ⟨x, y, _, hax⟩ := ha
    simp [← hax]

/-- A concrete raw INSERT record. -/
def insRecord : RawRecord :=
  ⟨"db", "tbl", "bin.000001", 154, 1700000000000, ["c1", "c2"],
   RawRows.ins [[("c1", Value.vint 1), ("c2", Value.vnull)]]⟩

/-- Witness for C5 at a concrete INSERT record: its single affected row
has no before image. -/
theorem C5_witness :
    (⟨none, some [("c1", Value.vint 1), ("c2", Value.vnull)]⟩ : AffectedRow).before
      = none :=
  (C5_affected_row_invariant insRecord).1
    [[("c1", Value.vint 1), ("c2", Value.vnull)]] rfl
    ⟨none, some [("c1", Value.vint 1), ("c2", Value.vnull)]⟩ (by decide)

/-- C6: for an UPDATE record the affected columns are exactly the table
columns at which some row's before and after images differ — values are
equal only if identical, so NULL equals NULL and NULL differs from every
non-NULL value — and for INSERT/DELETE records the affected columns are
the full column set. -/
theorem C6_affected_columns (r : RawRecord) :
    (∀ ps, r.rows = RawRows.upd ps → ∀ c : String,
      (c ∈ (translate r).affectedColumns ↔
        c ∈ r.columns ∧ ∃ p ∈ ps, rowGet p.fst c ≠ rowGet p.snd c)) ∧
    (∀ rs, r.rows = RawRows.ins rs → (translate r).affectedColumns = r.columns) ∧
    (∀ rs, r.rows = RawRows.del rs → (translate r).affectedColumns = r.columns) ∧
    valueDiff (some Value.vnull) (some Value.vnull) = false ∧
    (∀ v : Value, v ≠ Value.vnull →
      valueDiff (some Value.vnull) (some v) = true) := by
  refine ⟨?_, ?_, ?_, by decide, ?_⟩
  · intro ps hps c
    simp [translate, hps, affectedColumnsOf, List.mem_filter, valueDiff]
  · intro rs hrs
    simp [translate, hrs, affectedColumnsOf]
  · intro rs hrs
    simp [translate, hrs, affectedColumnsOf]
  · intro v hv
    simp [valueDiff]
    exact fun heq => hv heq.symm

/-- A concrete raw UPDATE record: `c1` keeps its value, `c2` changes from
NULL to 7. -/
def updRecord : RawRecord :=
  ⟨"db", "tbl", "bin.000001", 500, 1700000000000, ["c1", "c2"],
   RawRows.upd [([("c1", Value.vint 1), ("c2", Value.vnull)],
                 [("c1", Value.vint 1), ("c2", Value.vint 7)])]⟩

/-- Witness for C6: the column changed from NULL to a value is among the
affected columns of the concrete UPDATE record. -/
theorem C6_witness : "c2" ∈ (translate updRecord).affectedColumns :=
  ((C6_affected_columns updRecord).1
    [([("c1", Value.vint 1), ("c2", Value.vnull)],
      [("c1", Value.vint 1), ("c2", Value.vint 7)])] rfl "c2").mpr
    ⟨by decide,
     ⟨([("c1", Value.vint 1), ("c2", Value.vnull)],
       [("c1", Value.vint 1), ("c2", Value.vint 7)]), by decide, by decide⟩⟩

/-- C8: adding a trigger whose name is already registered fails
synchronously with a duplicate-name ConfigurationError and leaves the
registry — in particular the existing trigger of that name — unmodified. -/
theorem C8_duplicate_trigger_name (reg : List Trigger) (t old : Trigger)
    (hmem : old ∈ reg) (hname : old.name = t.name) :
    applyAddTrigger reg t = (reg, some (ConfigurationError.duplicateName t.name)) ∧
    old ∈ (applyAddTrigger reg t).fst := by
  have hany : reg.any (fun x => x.name == t.name) = true := by
    rw [List.any_eq_true]
    exact ⟨old, hmem, by simp [hname]⟩
  have h1 : applyAddTrigger reg t =
      (reg, some (ConfigurationError.duplicateName t.name)) := by
    simp [applyAddTrigger, addTrigger, hany]
  exact ⟨h1, by rw [h1]; exact hmem⟩

/-- Witness for C8: a duplicate add against a one-trigger registry fails
and returns the registry unchanged. -/
theorem C8_witness :
    applyAddTrigger [⟨"t1", "*.*", "ALL"⟩] ⟨"t1", "db.*", "INSERT"⟩ =
      ([⟨"t1", "*.*", "ALL"⟩], some (ConfigurationError.duplicateName "t1")) :=
  (C8_duplicate_trigger_name [⟨"t1", "*.*", "ALL"⟩] ⟨"t1", "db.*", "INSERT"⟩
    ⟨"t1", "*.*", "ALL"⟩ (by decide) rfl).1

/-- After `n + 1` loop steps over a source holding `recs`, the cursor
sits at record `n`'s position and exactly the records past `n` remain. -/
lemma runLoop_prefix (inc exc : SchemaMap) :
    ∀ (n : Nat) (recs : List RawRecord) (p0 : Position) (d : List Event)
      (h : n < recs.length),
      (runLoop inc exc (n + 1) ⟨p0, recs, d⟩).pos = recordPos (recs.get ⟨n, h⟩) ∧
      (runLoop inc exc (n + 1) ⟨p0, recs, d⟩).remaining = recs.drop (n + 1) := by
  intro n
  induction n with
  | zero =>
    intro recs p0 d h
    match recs, h with
    | r :: rest, _ =>
      simp [runLoop, stepLoop]
  | succ n ih =>
    intro recs p0 d h
    match recs, h with
    | r :: rest, h =>
      have h2 : n < rest.length := Nat.lt_of_succ_lt_succ (by simpa using h)
      have hih := ih rest (recordPos r)
        (if allowed inc exc r.schema r.table then d ++ [translate r] else d) h2
      simpa [runLoop, stepLoop] using hih

/-- Restarting from record `n`'s position re-delivers exactly the records
past `n`, provided the source delivers strictly increasing positions. -/
lemma resumeSource_drop :
    ∀ (recs : List RawRecord) (n : Nat) (h : n < recs.length),
      recs.Pairwise (fun a b => a.nextPosition < b.nextPosition) →
      resumeSource recs (recordPos (recs.get ⟨n, h⟩)) = recs.drop (n + 1) := by
  intro recs
  induction recs with
  | nil =>
    intro n h
    exact absurd h (Nat.not_lt_zero n)
  | cons r rest ih =>
    intro n h hp
    rw [List.pairwise_cons] at hp
    obtain ⟨hr, hp2⟩ := hp
    cases n with
    | zero =>
      have h0 : decide (r.nextPosition < r.nextPosition) = false := by simp
      have hget : (r :: rest).get ⟨0, h⟩ = r := rfl
      simp only [resumeSource, recordPos, hget, List.filter_cons, h0,
        Bool.false_eq_true, if_false, List.drop_succ_cons, List.drop_zero]
      exact List.filter_eq_self.mpr (fun b hb => decide_eq_true (hr b hb))
    | succ n =>
      have h2 : n < rest.length := Nat.lt_of_succ_lt_succ (by simpa using h)
      have hlt : r.nextPosition < (rest.get ⟨n, h2⟩).nextPosition :=
        hr _ (rest.get_mem n h2)
      have h0 : decide ((rest.get ⟨n, h2⟩).nextPosition < r.nextPosition) = false := by
        simp only [decide_eq_false_iff_not]
        omega
      simp only [resumeSource, recordPos, List.get_cons_succ, List.filter_cons, h0,
        Bool.false_eq_true, if_false, List.drop_succ_cons]
      exact ih n h2 hp2

/-- C7: the cursor advances monotonically over an ordered source; the
step that advances the cursor past a record is the same step that
completes that record's dispatch (the dispatched log already holds the
record's event in the very state whose cursor has moved past it); and a
stop after record `n` is fully dispatched, followed by a restart from the
persisted position, re-delivers exactly the records past `n` — record
`n` is not replayed and record `n + 1` is not skipped. -/
theorem C7_position_bookkeeping :
    (∀ (inc exc : SchemaMap) (s s2 : LoopState),
      stepLoop inc exc s = some s2 →
      (∀ r ∈ s.remaining, s.pos.nextPosition ≤ r.nextPosition) →
      s.pos.nextPosition ≤ s2.pos.nextPosition) ∧
    (∀ (inc exc : SchemaMap) (s s2 : LoopState) (r : RawRecord)
      (rest : List RawRecord),
      s.remaining = r :: rest → stepLoop inc exc s = some s2 →
      s2.pos = recordPos r ∧ s2.remaining = rest ∧
      (allowed inc exc r.schema r.table = true →
        s2.dispatched = s.dispatched ++ [translate r]) ∧
      (allowed inc exc r.schema r.table = false →
        s2.dispatched = s.dispatched)) ∧
    (∀ (inc exc : SchemaMap) (recs : List RawRecord) (p0 : Position) (n : Nat)
      (h : n < recs.length),
      recs.Pairwise (fun a b => a.nextPosition < b.nextPosition) →
      restartState recs ((runLoop inc exc (n + 1) ⟨p0, recs, []⟩).pos) =
        ⟨recordPos (recs.get ⟨n, h⟩), recs.drop (n + 1), []⟩) := by
  refine ⟨?_, ?_, ?_⟩
  · intro inc exc s s2 hstep hmono
    match hrem : s.remaining with
    | [] =>
      rw [stepLoop, hrem] at hstep
      cases hstep
    | r :: rest =>
      rw [stepLoop, hrem] at hstep
      cases hstep
      exact hmono r (by rw [hrem]; exact List.mem_cons_self r rest)
  · intro inc exc s s2 r rest hrem hstep
    rw [stepLoop, hrem] at hstep
    cases hstep
    refine ⟨rfl, rfl, ?_, ?_⟩
    · intro ha
      simp [ha]
    · intro ha
      simp [ha]
  · intro inc exc recs p0 n h hp
    obtain ⟨hpos, _⟩ := runLoop_prefix inc exc n recs p0 [] h
    rw [restartState, hpos, resumeSource_drop recs n h hp]

/-- Two concrete ordered raw records. -/
def rec1 : RawRecord :=
  ⟨"db", "t", "bin.000001", 100, 0, ["c"], RawRows.ins [[("c", Value.vint 1)]]⟩

def rec2 : RawRecord :=
  ⟨"db", "t", "bin.000001", 200, 0, ["c"], RawRows.ins [[("c", Value.vint 2)]]⟩

/-- Witness for C7: stopping after record 0 of a two-record source and
restarting from the persisted cursor re-delivers exactly record 1. -/
theorem C7_witness :
    restartState [rec1, rec2] ((runLoop [] [] 1 ⟨⟨"bin.000001", 4⟩, [rec1, rec2], []⟩).pos) =
      ⟨recordPos rec1, [rec2], []⟩ :=
  C7_position_bookkeeping.2.2 [] [] [rec1, rec2] ⟨"bin.000001", 4⟩ 0
    (by decide) (by decide)

end MySQLEvents
